import Mathlib

/-!
Verification of the state-manipulation logic of the homework-checker
application (src/app.py): the data model, range application, page
initialization, the summary builder and the JSON persistence layer,
together with proofs of the behavioural properties claimed for them.

Python dicts are modelled as insertion-ordered association lists (CPython
dicts preserve insertion order); Python ints are `Int`; functions that
mutate an object are translated to functions returning the updated object,
and a function that may raise returns the object paired with the optional
error message (in the source every `raise` happens before any mutation).
-/

namespace HomeworkChecker

/-- A Python `dict` with string keys: an insertion-ordered association list. -/
abbrev Dict (α : Type) := List (String × α)

/-- `d.get(k)` / `k in d`: the value stored at key `k`, if any. -/
def dictGet {α : Type} (d : Dict α) (k : String) : Option α :=
  (d.find? (fun kv => kv.1 == k)).map (fun kv => kv.2)

/-- `d[k] = v`: overwrite in place when the key exists, else append at the end. -/
def dictInsert {α : Type} (d : Dict α) (k : String) (v : α) : Dict α :=
  if d.any (fun kv => kv.1 == k) then
    d.map (fun kv => if kv.1 == k then (k, v) else kv)
  else d ++ [(k, v)]

/-- A real Python dict never holds the same key twice; association lists
that model reachable dicts satisfy this invariant. -/
def NodupKeys {α : Type} (d : Dict α) : Prop := (d.map Prod.fst).Nodup

instance {α : Type} (d : Dict α) : Decidable (NodupKeys d) :=
  List.nodupDecidable _

/-- The `Problem` dataclass (src/app.py lines 23-26). -/
structure Problem where
  status : String := "완료"
  memo : String := ""
deriving DecidableEq

/-- The `PageUnit` dataclass (src/app.py lines 29-35). -/
structure PageUnit where
  done : Bool := false
  start_problem : Option Int := none
  end_problem : Option Int := none
  problems : Dict Problem := []
deriving DecidableEq

/-- The `AppState` dataclass (src/app.py lines 38-43). -/
structure AppState where
  book_name : String := ""
  start_page : Option Int := none
  end_page : Option Int := none
  pages : Dict PageUnit := []
deriving DecidableEq

/-- Python `range(s, e + 1)` over ints: `s, s+1, ..., e`. -/
def rangeList (s e : Int) : List Int :=
  (List.range (e + 1 - s).toNat).map (fun j : Nat => s + (j : Int))

/-- `clamp_pages` (src/app.py lines 206-207). -/
def clamp_pages (sp ep : Int) : Int × Int :=
  if sp ≤ ep then (sp, ep) else (ep, sp)

/-- `ensure_pages_initialized` (src/app.py lines 210-218): with both page
bounds set, stores them clamped and appends a default `PageUnit` for every
in-range page number whose key is missing; otherwise returns the state
unchanged. -/
def ensure_pages_initialized (state : AppState) : AppState :=
  match state.start_page, state.end_page with
  | some sp0, some ep0 =>
    let c := clamp_pages sp0 ep0
    { state with
      start_page := some c.1
      end_page := some c.2
      pages := (rangeList c.1 c.2).foldl
        (fun d p =>
          if (dictGet d (toString p)).isSome then d
          else d ++ [(toString p, {})])
        state.pages }
  | _, _ => state

/-- `apply_problem_range` (src/app.py lines 221-240).  The Python function
mutates `unit` in place and signals failure with `raise ValueError`; both
raises occur before any mutation, so the translation returns the unit
(unchanged on failure) paired with the optional error message. -/
def apply_problem_range (unit : PageUnit) (start_n end_n : Int) :
    PageUnit × Option String :=
  if start_n ≤ 0 ∨ end_n ≤ 0 then
    (unit, some "문항 번호는 1 이상이어야 합니다.")
  else
    let se := if start_n > end_n then (end_n, start_n) else (start_n, end_n)
    if se.2 - se.1 > 500 then
      (unit, some "범위가 너무 큽니다(500개 초과).")
    else
      let keep := (rangeList se.1 se.2).map (fun i => toString i)
      let withNew := (rangeList se.1 se.2).foldl
        (fun d i =>
          if (dictGet d (toString i)).isSome then d
          else d ++ [(toString i, { status := "완료", memo := "" })])
        unit.problems
      ({ done := unit.done
         start_problem := some se.1
         end_problem := some se.2
         problems := withNew.filter (fun kv => keep.contains kv.1) }, none)

/-- One decimal digit of a key string. -/
def digitOfChar? (c : Char) : Option Nat :=
  if 48 ≤ c.toNat ∧ c.toNat ≤ 57 then some (c.toNat - 48) else none

/-- The value of a nonempty all-digit character list, most significant first. -/
def parseNat? (cs : List Char) : Option Nat :=
  match cs with
  | [] => none
  | _ =>
    cs.foldl
      (fun acc c =>
        match acc, digitOfChar? c with
        | some a, some d => some (10 * a + d)
        | _, _ => none)
      (some 0)

/-- Python `int(key)`, the summary sort key (src/app.py line 258).  Every key
the application creates is `str(i)` for an int `i`; that grammar (optional
minus sign followed by digits) is modelled, and a string Python `int` would
reject is mapped to 0 here (Python raises on it, a case no state produced by
the application reaches). -/
def pyInt (s : String) : Int :=
  match s.data with
  | [] => 0
  | c :: cs =>
    if c = Char.ofNat 45 then
      match parseNat? cs with
      | some n => -(n : Int)
      | none => 0
    else
      match parseNat? (c :: cs) with
      | some n => (n : Int)
      | none => 0

/-- The sort order of the per-page problem loop: Python
`sorted(unit.problems.items(), key=lambda kv: int(kv[0]))`. -/
def problemOrder (a b : String × Problem) : Prop := pyInt a.1 ≤ pyInt b.1

instance : DecidableRel problemOrder := fun _ _ => Int.decLe _ _

instance : IsTotal (String × Problem) problemOrder := ⟨fun _ _ => Int.le_total _ _⟩

instance : IsTrans (String × Problem) problemOrder := ⟨fun _ _ _ => Int.le_trans⟩

/-- `sorted(unit.problems.items(), key=lambda kv: int(kv[0]))`: Python's
`sorted` is a stable sort, modelled by stable insertion sort on the same
key order. -/
def sortedProblems (u : PageUnit) : List (String × Problem) :=
  List.insertionSort problemOrder u.problems

/-- Python `str.strip()` on a memo: leading and trailing whitespace
removed. -/
def pyStrip (s : String) : String :=
  ⟨((s.data.dropWhile Char.isWhitespace).reverse.dropWhile Char.isWhitespace).reverse⟩

/-- The tag `f"[p.\x7bp\x7d \x7bnum\x7d번]"` (src/app.py line 259). -/
def problemTag (p : Int) (num : String) : String :=
  "[p." ++ toString p ++ " " ++ num ++ "번]"

/-- One iteration of the inner loop of `build_summary` (src/app.py lines
258-266); the accumulator is the `(wrong, fixed, ques)` triple. -/
def summaryStep (p : Int) (acc : List String × List String × List String)
    (kv : String × Problem) : List String × List String × List String :=
  let tag := problemTag p kv.1
  if kv.2.status = "틀림" then
    (acc.1 ++ [tag], acc.2.1, acc.2.2)
  else if kv.2.status = "틀렸지만 고침" then
    (acc.1, acc.2.1 ++ [tag], acc.2.2)
  else if kv.2.status = "질문" then
    let memo := pyStrip kv.2.memo
    (acc.1, acc.2.1,
      acc.2.2 ++ [if memo = "" then tag ++ " (메모 없음)" else tag ++ " " ++ memo])
  else acc

/-- The `(wrong, fixed, ques)` lists that `build_summary` accumulates over
the page range (src/app.py lines 252-266): pages are visited in ascending
order, a missing page or a page without problems is skipped, and within a
page the problems are visited sorted by numeric key. -/
def summarySections (state : AppState) (sp ep : Int) :
    List String × List String × List String :=
  (rangeList sp ep).foldl
    (fun acc p =>
      match dictGet state.pages (toString p) with
      | none => acc
      | some unit =>
        if unit.problems.isEmpty then acc
        else (sortedProblems unit).foldl (summaryStep p) acc)
    ([], [], [])

/-- `build_summary` (src/app.py lines 243-282).  `dt.datetime.now()` is
impure, so the formatted date line's value is the `today` argument. -/
def build_summary (state : AppState) (today : String) : String :=
  match state.start_page, state.end_page with
  | some sp0, some ep0 =>
    let c := clamp_pages sp0 ep0
    let secs := summarySections state c.1 c.2
    String.intercalate "\n"
      ["✅ 오늘 숙제 정리",
       "- 문제집: " ++ (if state.book_name = "" then "(미입력)" else state.book_name),
       "- 범위: p." ++ toString c.1 ++ " ~ p." ++ toString c.2,
       "- 날짜: " ++ today,
       "",
       "❌ 틀림",
       (if secs.1.isEmpty then "없음" else String.intercalate ", " secs.1),
       "",
       "🛠️ 틀렸지만 고침",
       (if secs.2.1.isEmpty then "없음" else String.intercalate ", " secs.2.1),
       "",
       "❓ 질문 + 메모",
       (if secs.2.2.isEmpty then "없음" else String.intercalate "\n" secs.2.2)]
  | _, _ => "숙제 범위가 설정되지 않았습니다."

/-- The wrong-section entries contributed by page `p`, read off
declaratively: the problems of the page sorted by numeric key, filtered to
status "틀림", each rendered as its tag. -/
def wrongTags (state : AppState) (p : Int) : List String :=
  match dictGet state.pages (toString p) with
  | none => []
  | some u =>
    ((sortedProblems u).filter (fun kv => kv.2.status == "틀림")).map
      (fun kv => problemTag p kv.1)

/-- The fixed-section entries contributed by page `p`. -/
def fixedTags (state : AppState) (p : Int) : List String :=
  match dictGet state.pages (toString p) with
  | none => []
  | some u =>
    ((sortedProblems u).filter (fun kv => kv.2.status == "틀렸지만 고침")).map
      (fun kv => problemTag p kv.1)

/-- The question-section entries contributed by page `p`: tag plus trimmed
memo, or the no-memo placeholder when the trimmed memo is empty. -/
def quesTags (state : AppState) (p : Int) : List String :=
  match dictGet state.pages (toString p) with
  | none => []
  | some u =>
    ((sortedProblems u).filter (fun kv => kv.2.status == "질문")).map
      (fun kv =>
        if pyStrip kv.2.memo = "" then problemTag p kv.1 ++ " (메모 없음)"
        else problemTag p kv.1 ++ " " ++ pyStrip kv.2.memo)

/-! ## JSON persistence

`save_state` serializes the state with `json.dump` and `load_state` parses
the file with `json.load`; both are modelled at the level of the parsed
JSON value (a faithful round-trip of `json.dump`/`json.load` on the
documents this application writes).  An `obj` stands for a parsed Python
dict, so its keys are distinct (`json.load` collapses duplicate keys).
The application writes only integers, strings, booleans and null, so
numbers are modelled as `Int`. -/

/-- A parsed JSON document. -/
inductive Json where
  | null : Json
  | bool : Bool → Json
  | num : Int → Json
  | str : String → Json
  | arr : List Json → Json
  | obj : List (String × Json) → Json

/-- Python truthiness of a `json.load` value. -/
def jFalsy : Json → Bool
  | .null => true
  | .bool b => !b
  | .num n => n == 0
  | .str s => s == ""
  | .arr xs => xs.isEmpty
  | .obj fs => fs.isEmpty

/-- `raw.get(k)` on a parsed JSON object. -/
def jGet (fs : List (String × Json)) (k : String) : Option Json :=
  (fs.find? (fun kv => kv.1 == k)).map (fun kv => kv.2)

/-- `raw.get(k, default)` on a parsed JSON object. -/
def jGetD (fs : List (String × Json)) (k : String) (dflt : Json) : Json :=
  (jGet fs k).getD dflt

/-- Attribute access `.get` / `.items()` succeeds only on a dict; on any
other value Python raises `AttributeError`, which the `except` clause of
`load_state` turns into `None`. -/
def jObj? : Json → Option (List (String × Json))
  | .obj fs => some fs
  | _ => none

/-- `(x or \x7b\x7d)` as applied to the `pages` / `problems` members: a
falsy value (including null and the empty object) is replaced by an empty
dict. -/
def jOrEmptyObj : Option Json → Json
  | none => .obj []
  | some j => if jFalsy j then .obj [] else j

/-- `raw.get(k)` stored into an `Optional[int]` dataclass field: a JSON
integer loads as that integer, null or a missing member as `None`.  (A value
outside the declared file schema of the spec is stored verbatim by Python;
such documents are not representable in the typed model and no claim
depends on them.) -/
def jBound : Option Json → Option Int
  | some (.num n) => some n
  | _ => none

/-- A single quote character, as CPython `repr` uses around strings. -/
def pyQuote (s : String) : String :=
  String.singleton (Char.ofNat 39) ++ s ++ String.singleton (Char.ofNat 39)

mutual
/-- CPython `repr` of a `json.load` value (the escaping of quote characters
inside strings is not modelled; no claim applies `str()` to a non-string
value, where this is the only place it would matter). -/
def pyRepr : Json → String
  | .null => "None"
  | .bool true => "True"
  | .bool false => "False"
  | .num n => toString n
  | .str s => pyQuote s
  | .arr xs => "[" ++ pyReprList xs ++ "]"
  | .obj fs => "\x7b" ++ pyReprFields fs ++ "\x7d"

/-- `repr` of a Python list body, comma separated. -/
def pyReprList : List Json → String
  | [] => ""
  | [x] => pyRepr x
  | x :: y :: xs => pyRepr x ++ ", " ++ pyReprList (y :: xs)

/-- `repr` of a Python dict body, comma separated. -/
def pyReprFields : List (String × Json) → String
  | [] => ""
  | [(k, v)] => pyQuote k ++ ": " ++ pyRepr v
  | (k, v) :: kv :: kvs => pyQuote k ++ ": " ++ pyRepr v ++ ", " ++ pyReprFields (kv :: kvs)
end

/-- Python `str()` of a `json.load` value: the string itself on a string,
`repr` on everything else (`load_state` applies it to `book_name`,
`status` and `memo`). -/
def pyStr : Json → String
  | .str s => s
  | j => pyRepr j

/-- Serialization of an `Optional[int]` field: `None` becomes null. -/
def optIntJson : Option Int → Json
  | none => .null
  | some n => .num n

/-- The members of `asdict(v)` for a `Problem` (src/app.py line 70). -/
def save_problem_fields (v : Problem) : List (String × Json) :=
  [("status", .str v.status), ("memo", .str v.memo)]

/-- `asdict(v)` for a `Problem`. -/
def save_problem (v : Problem) : Json := .obj (save_problem_fields v)

/-- The members of the `raw["pages"][pk]` object written by `save_state`
(src/app.py lines 65-71). -/
def save_page_fields (pu : PageUnit) : List (String × Json) :=
  [("done", .bool pu.done),
   ("start_problem", optIntJson pu.start_problem),
   ("end_problem", optIntJson pu.end_problem),
   ("problems", .obj (pu.problems.map (fun kv => (kv.1, save_problem kv.2))))]

/-- The `raw["pages"][pk]` object written by `save_state`. -/
def save_page (pu : PageUnit) : Json := .obj (save_page_fields pu)

/-- The members of the top-level object written by `save_state`
(src/app.py lines 59-71). -/
def save_state_fields (state : AppState) : List (String × Json) :=
  [("book_name", .str state.book_name),
   ("start_page", optIntJson state.start_page),
   ("end_page", optIntJson state.end_page),
   ("pages", .obj (state.pages.map (fun kv => (kv.1, save_page kv.2))))]

/-- `save_state` (src/app.py lines 49-74) at the JSON-value level: the
document passed to `json.dump`.  The file I/O around it (backup copy,
write) is not part of the value model. -/
def save_state (state : AppState) : Json := .obj (save_state_fields state)

/-- The `Problem` built from one member of a `problems` object
(src/app.py lines 98-101). -/
def load_problem (v : List (String × Json)) : Problem :=
  { status := pyStr (jGetD v "status" (.str "완료")),
    memo := pyStr (jGetD v "memo" (.str "")) }

/-- One iteration of the `problems` loop of `load_state`: a non-dict
member raises (aborting the load), a dict member is decoded and stored. -/
def load_problems_step (acc : Dict Problem) (kv : String × Json) : Option (Dict Problem) := do
  let v ← jObj? kv.2
  pure (dictInsert acc kv.1 (load_problem v))

/-- The inner loop of `load_state` over a `problems` object
(src/app.py lines 97-101). -/
def load_problems (fs : List (String × Json)) : Option (Dict Problem) :=
  fs.foldlM load_problems_step []

/-- The `PageUnit` built from one member of the `pages` object
(src/app.py lines 91-101). -/
def load_page (pu : List (String × Json)) : Option PageUnit := do
  let problems ← load_problems (← jObj? (jOrEmptyObj (jGet pu "problems")))
  pure { done := !(jFalsy (jGetD pu "done" (.bool false))),
         start_problem := jBound (jGet pu "start_problem"),
         end_problem := jBound (jGet pu "end_problem"),
         problems := problems }

/-- One iteration of the `pages` loop of `load_state`: a non-dict member
raises (aborting the load), a dict member is decoded and stored. -/
def load_pages_step (acc : Dict PageUnit) (kv : String × Json) : Option (Dict PageUnit) := do
  let pu ← jObj? kv.2
  let unit ← load_page pu
  pure (dictInsert acc kv.1 unit)

/-- The loop of `load_state` over the `pages` object
(src/app.py lines 90-102). -/
def load_pages (fs : List (String × Json)) : Option (Dict PageUnit) :=
  fs.foldlM load_pages_step []

/-- `load_state` (src/app.py lines 77-106).  The argument is `none` when
the state file is missing or `json.load` fails to parse it; any structure
error afterwards (attribute access on a non-dict) is caught by the
`except` clause and also yields `none`. -/
def load_state (input : Option Json) : Option AppState := do
  let raw ← input
  let fs ← jObj? raw
  let pages ← load_pages (← jObj? (jOrEmptyObj (jGet fs "pages")))
  pure { book_name := pyStr (jGetD fs "book_name" (.str "")),
         start_page := jBound (jGet fs "start_page"),
         end_page := jBound (jGet fs "end_page"),
         pages := pages }

/-! ## Decimal numerals

`Nat.repr` (the `str(i)` used for every dict key the application creates)
is injective; proved by relating `Nat.toDigitsCore` to a fuel-free digit
function and reconstructing the number from its digit string. -/

/-- The decimal digit characters of `n`, most significant first: the value
`Nat.toDigitsCore` computes once given enough fuel. -/
def natToDigits (n : Nat) : List Char :=
  if _h : n < 10 then [Nat.digitChar n]
  else natToDigits (n / 10) ++ [Nat.digitChar (n % 10)]
termination_by n
decreasing_by exact Nat.div_lt_self (by omega) (by omega)

/-- The numeric value of a digit character. -/
def digitVal (c : Char) : Nat := c.toNat - 48

/-- The number encoded by a digit string, most significant first. -/
def digitsVal (l : List Char) : Nat :=
  l.foldl (fun acc c => 10 * acc + digitVal c) 0

/-! ## Concrete states used as witnesses -/

/-- The two-page state of the spec's summary example: page 1 problem "3"
wrong, page 2 problem "5" question with memo "why". -/
def exampleSummaryState : AppState :=
  { book_name := ""
    start_page := some 1
    end_page := some 2
    pages := [("1", { done := false, start_problem := some 3, end_problem := some 3,
                      problems := [("3", { status := "틀림", memo := "" })] }),
              ("2", { done := false, start_problem := some 5, end_problem := some 5,
                      problems := [("5", { status := "질문", memo := "why" })] })] }

/-- A one-page state whose problem keys sort numerically ("9" before "10")
but not lexicographically. -/
def exampleNumericState : AppState :=
  { book_name := ""
    start_page := some 1
    end_page := some 1
    pages := [("1", { done := false, start_problem := some 9, end_problem := some 10,
                      problems := [("10", { status := "틀림", memo := "" }),
                                   ("9", { status := "틀림", memo := "" })] })] }

/-- A one-page state with question memos that are blank or padded. -/
def exampleMemoState : AppState :=
  { book_name := ""
    start_page := some 1
    end_page := some 1
    pages := [("1", { done := false, start_problem := some 4, end_problem := some 6,
                      problems := [("4", { status := "질문", memo := "  " }),
                                   ("6", { status := "질문", memo := " why " })] })] }

/-- A one-page state mixing a done problem, a wrong problem and a problem
whose status is outside the four-value enum. -/
def exampleMixedState : AppState :=
  { book_name := ""
    start_page := some 1
    end_page := some 1
    pages := [("1", { done := false, start_problem := some 1, end_problem := some 3,
                      problems := [("1", { status := "완료", memo := "" }),
                                   ("2", { status := "틀림", memo := "" }),
                                   ("3", { status := "못푼 상태", memo := "x" })] })] }

/-! ## Basic lemmas about the dict model and integer ranges -/

theorem mem_rangeList {s e i : Int} : i ∈ rangeList s e ↔ s ≤ i ∧ i ≤ e := by
  simp only [rangeList, List.mem_map, List.mem_range]
  constructor
  · rintro ⟨j, hj, rfl⟩
    constructor
    · omega
    · omega
  · intro h
    refine ⟨(i - s).toNat, ?_, ?_⟩
    · omega
    · omega

theorem length_rangeList (s e : Int) : (rangeList s e).length = (e + 1 - s).toNat := by
  unfold rangeList
  rw [List.length_map, List.length_range]

theorem nodup_rangeList (s e : Int) : (rangeList s e).Nodup := by
  unfold rangeList
  refine List.Nodup.map ?_ (List.nodup_range _)
  intro a b hab
  dsimp only at hab
  omega

theorem dictGet_cons {α : Type} (kv : String × α) (d : Dict α) (k : String) :
    dictGet (kv :: d) k = if kv.1 == k then some kv.2 else dictGet d k := by
  by_cases h : kv.1 == k <;> simp [dictGet, List.find?_cons, h]

theorem dictGet_append {α : Type} (d₁ d₂ : Dict α) (k : String) :
    dictGet (d₁ ++ d₂) k = (dictGet d₁ k).or (dictGet d₂ k) := by
  simp only [dictGet, List.find?_append]
  cases d₁.find? (fun kv => kv.1 == k) <;> simp

theorem dictGet_singleton {α : Type} (k' k : String) (v : α) :
    dictGet [(k', v)] k = if k' == k then some v else none := by
  by_cases h : k' == k <;> simp [dictGet, List.find?_cons, h]

theorem dictGet_eq_none_iff {α : Type} (d : Dict α) (k : String) :
    dictGet d k = none ↔ ∀ kv ∈ d, kv.1 ≠ k := by
  simp [dictGet, List.find?_eq_none]

/-- Value lookup after the add-missing-keys loop shared by
`ensure_pages_initialized` and `apply_problem_range`. -/
theorem dictGet_ensureFold {α : Type} (v : α) (l : List Int) (d : Dict α) (k : String) :
    dictGet (l.foldl
      (fun d i => if (dictGet d (toString i)).isSome then d else d ++ [(toString i, v)]) d) k
    = (dictGet d k).or (if l.any (fun i => toString i == k) then some v else none) := by
  induction l generalizing d with
  | nil => simp
  | cons i l ih =>
    simp only [List.foldl_cons, List.any_cons]
    by_cases hik : toString i == k
    · have hik' : toString i = k := by simpa using hik
      by_cases hi : (dictGet d (toString i)).isSome
      · rw [if_pos hi, ih]
        obtain ⟨w, hw⟩ := Option.isSome_iff_exists.mp hi
        rw [hik'] at hw
        simp [hw, hik]
      · rw [if_neg hi, ih, dictGet_append, dictGet_singleton]
        have hd : dictGet d k = none := by
          rw [← hik']
          exact Option.not_isSome_iff_eq_none.mp hi
        simp [hd, hik]
    · by_cases hi : (dictGet d (toString i)).isSome
      · rw [if_pos hi, ih]
        simp [hik]
      · rw [if_neg hi, ih, dictGet_append, dictGet_singleton]
        simp [hik]

/-- Value lookup after the delete-out-of-range loop of
`apply_problem_range`: filtering by a predicate on keys. -/
theorem dictGet_filterKeys {α : Type} (f : String → Bool) (d : Dict α) (k : String) :
    dictGet (d.filter (fun kv => f kv.1)) k = if f k then dictGet d k else none := by
  induction d with
  | nil => simp [dictGet]
  | cons kv d ih =>
    by_cases hk : kv.1 == k
    · have hk' : kv.1 = k := by simpa using hk
      subst hk'
      by_cases hf : f kv.1 <;> simp [List.filter_cons, hf, dictGet_cons, ih]
    · by_cases hf : f kv.1 <;> simp [List.filter_cons, hf, hk, dictGet_cons, ih]

/-- The add-missing-keys loop preserves the no-duplicate-keys invariant. -/
theorem ensureFold_nodupKeys {α : Type} (v : α) (l : List Int) (d : Dict α)
    (h : NodupKeys d) :
    NodupKeys (l.foldl
      (fun d i => if (dictGet d (toString i)).isSome then d else d ++ [(toString i, v)]) d) := by
  induction l generalizing d with
  | nil => exact h
  | cons i l ih =>
    simp only [List.foldl_cons]
    by_cases hi : (dictGet d (toString i)).isSome
    · rw [if_pos hi]
      exact ih d h
    · rw [if_neg hi]
      apply ih
      have hnone : dictGet d (toString i) = none := Option.not_isSome_iff_eq_none.mp hi
      have hnotmem : toString i ∉ d.map Prod.fst := by
        intro hmem
        obtain ⟨kv, hkv, hfst⟩ := List.mem_map.mp hmem
        exact (dictGet_eq_none_iff d (toString i)).mp hnone kv hkv hfst
      unfold NodupKeys at h ⊢
      rw [List.map_append]
      simp [List.nodup_append, h, hnotmem]

/-- With all keys fresh and distinct, the add-missing-keys loop is a plain
append of default entries. -/
theorem ensureFold_eq_append_map {α : Type} (v : α) (l : List Int) (d : Dict α)
    (hfresh : ∀ i ∈ l, dictGet d (toString i) = none)
    (hnd : (l.map (fun i => toString i)).Nodup) :
    l.foldl
      (fun d i => if (dictGet d (toString i)).isSome then d else d ++ [(toString i, v)]) d
    = d ++ l.map (fun i => (toString i, v)) := by
  induction l generalizing d with
  | nil => simp
  | cons i l ih =>
    simp only [List.foldl_cons, List.map_cons]
    rw [if_neg (by simp [hfresh i (by simp)])]
    rw [List.map_cons] at hnd
    rw [ih]
    · simp
    · intro j hj
      rw [dictGet_append, hfresh j (by simp [hj]), dictGet_singleton, Option.none_or]
      rw [if_neg]
      intro hbeq
      have hij : toString i = toString j := by simpa using hbeq
      exact (List.nodup_cons.mp hnd).1 (hij ▸ List.mem_map_of_mem _ hj)
    · exact (List.nodup_cons.mp hnd).2

/-- A dict whose keys are all distinct and contained in `keep` has at most
`keep.length` entries after filtering. -/
theorem length_filter_keys_le {α : Type} (d : Dict α) (keep : List String)
    (hnd : NodupKeys d) :
    (d.filter (fun kv => keep.contains kv.1)).length ≤ keep.length := by
  have hsub : ((d.filter (fun kv => keep.contains kv.1)).map Prod.fst) ⊆ keep := by
    intro k hk
    obtain ⟨kv, hkv, rfl⟩ := List.mem_map.mp hk
    have hc := (List.mem_filter.mp hkv).2
    rw [List.contains_eq_any_beq] at hc
    obtain ⟨a, ha, hbeq⟩ := List.any_eq_true.mp hc
    have : kv.1 = a := by simpa using hbeq
    exact this ▸ ha
  have hnodup : ((d.filter (fun kv => keep.contains kv.1)).map Prod.fst).Nodup :=
    ((List.filter_sublist d).map Prod.fst).nodup hnd
  calc (d.filter (fun kv => keep.contains kv.1)).length
      = ((d.filter (fun kv => keep.contains kv.1)).map Prod.fst).length :=
        (List.length_map _ _).symm
    _ ≤ keep.length := (hnodup.subperm hsub).length_le

/-! ## Shape lemmas for `apply_problem_range` -/

theorem clamp_pages_eq (a b : Int) : clamp_pages a b = (min a b, max a b) := by
  unfold clamp_pages
  by_cases h : a ≤ b
  · rw [if_pos h, min_eq_left h, max_eq_right h]
  · rw [if_neg h, min_eq_right (by omega), max_eq_left (by omega)]

theorem apply_problem_range_err1 (u : PageUnit) (s e : Int) (h : s ≤ 0 ∨ e ≤ 0) :
    apply_problem_range u s e = (u, some "문항 번호는 1 이상이어야 합니다.") := by
  unfold apply_problem_range
  rw [if_pos h]

theorem apply_problem_range_err2 (u : PageUnit) (s e : Int)
    (h1 : ¬(s ≤ 0 ∨ e ≤ 0)) (h2 : 500 < max s e - min s e) :
    apply_problem_range u s e = (u, some "범위가 너무 큽니다(500개 초과).") := by
  unfold apply_problem_range
  rw [if_neg h1]
  by_cases hse : s > e
  · have hmin : min s e = e := by omega
    have hmax : max s e = s := by omega
    rw [hmin, hmax] at h2
    simp only [gt_iff_lt, if_pos hse]
    rw [if_pos (by omega : ((e, s).2 - (e, s).1 > 500))]
  · have hmin : min s e = s := by omega
    have hmax : max s e = e := by omega
    rw [hmin, hmax] at h2
    simp only [gt_iff_lt, if_neg hse]
    rw [if_pos (by omega : ((s, e).2 - (s, e).1 > 500))]

theorem apply_problem_range_ok (u : PageUnit) (s e : Int)
    (hs : 0 < s) (he : 0 < e) (hspan : max s e - min s e ≤ 500) :
    apply_problem_range u s e =
      ({ done := u.done
         start_problem := some (min s e)
         end_problem := some (max s e)
         problems := ((rangeList (min s e) (max s e)).foldl
            (fun d i =>
              if (dictGet d (toString i)).isSome then d
              else d ++ [(toString i, { status := "완료", memo := "" })])
            u.problems).filter
            (fun kv =>
              ((rangeList (min s e) (max s e)).map (fun i => toString i)).contains kv.1) },
       none) := by
  unfold apply_problem_range
  rw [if_neg (by omega : ¬(s ≤ 0 ∨ e ≤ 0))]
  by_cases hse : s > e
  · have hmin : min s e = e := by omega
    have hmax : max s e = s := by omega
    rw [hmin, hmax] at hspan ⊢
    simp only [gt_iff_lt, if_pos hse]
    rw [if_neg (by omega : ¬((e, s).2 - (e, s).1 > 500))]
  · have hmin : min s e = s := by omega
    have hmax : max s e = e := by omega
    rw [hmin, hmax] at hspan ⊢
    simp only [gt_iff_lt, if_neg hse]
    rw [if_neg (by omega : ¬((s, e).2 - (s, e).1 > 500))]

theorem any_toString_beq (l : List Int) (k : String) :
    ((l.map (fun i => toString i)).any (fun x => k == x))
      = (l.any (fun i => toString i == k)) := by
  induction l with
  | nil => rfl
  | cons i l ih =>
    simp only [List.map_cons, List.any_cons, ih]
    by_cases h : toString i = k
    · rw [h]
    · rw [beq_eq_false_iff_ne.mpr (fun hh => h hh.symm), beq_eq_false_iff_ne.mpr h]

/-- After a successful range application, the value stored at key `k` is:
the old value (or a fresh default Problem) when `k` is the string form of
an in-range number, and nothing otherwise. -/
theorem apply_problem_range_get (u : PageUnit) (s e : Int)
    (hs : 0 < s) (he : 0 < e) (hspan : max s e - min s e ≤ 500) (k : String) :
    dictGet (apply_problem_range u s e).1.problems k =
      if (rangeList (min s e) (max s e)).any (fun i => toString i == k)
      then some ((dictGet u.problems k).getD { status := "완료", memo := "" })
      else none := by
  rw [apply_problem_range_ok u s e hs he hspan]
  dsimp only
  rw [dictGet_filterKeys, dictGet_ensureFold]
  have hcontains :
      (((rangeList (min s e) (max s e)).map (fun i => toString i)).contains k)
        = (rangeList (min s e) (max s e)).any (fun i => toString i == k) := by
    rw [List.contains_eq_any_beq]
    exact any_toString_beq _ k
  rw [hcontains]
  by_cases hany : (rangeList (min s e) (max s e)).any (fun i => toString i == k)
  · cases hval : dictGet u.problems k <;> simp [hval, hany]
  · simp [hany]

/-! ## Injectivity of `str(i)` on the integers the application uses -/

theorem natToDigits_toDigitsCore (fuel : Nat) :
    ∀ (n : Nat) (ds : List Char), n < fuel →
      Nat.toDigitsCore 10 fuel n ds = natToDigits n ++ ds := by
  induction fuel with
  | zero => intro n ds h; omega
  | succ fuel ih =>
    intro n ds h
    have hstep : Nat.toDigitsCore 10 (fuel + 1) n ds =
        if n / 10 = 0 then Nat.digitChar (n % 10) :: ds
        else Nat.toDigitsCore 10 fuel (n / 10) (Nat.digitChar (n % 10) :: ds) := by
      simp [Nat.toDigitsCore]
    rw [hstep]
    by_cases h10 : n / 10 = 0
    · rw [if_pos h10]
      have hn : n < 10 := by omega
      rw [natToDigits, dif_pos hn]
      have hmod : n % 10 = n := by omega
      rw [hmod]
      rfl
    · rw [if_neg h10]
      rw [ih (n / 10) _ (by omega)]
      conv_rhs => rw [natToDigits]
      rw [dif_neg (by omega : ¬ n < 10)]
      rw [List.append_assoc]
      rfl

theorem digitVal_digitChar {n : Nat} (h : n < 10) :
    digitVal (Nat.digitChar n) = n := by
  interval_cases n <;> decide

theorem foldl_digitsVal (n : Nat) : ∀ acc : Nat,
    (natToDigits n).foldl (fun acc c => 10 * acc + digitVal c) acc
      = acc * 10 ^ (natToDigits n).length + n := by
  induction n using Nat.strong_induction_on with
  | _ n ih =>
    intro acc
    by_cases h : n < 10
    · rw [natToDigits, dif_pos h]
      simp only [List.foldl_cons, List.foldl_nil, List.length_cons, List.length_nil]
      rw [digitVal_digitChar h]
      norm_num
      omega
    · rw [natToDigits, dif_neg h]
      rw [List.foldl_append, List.length_append]
      rw [ih (n / 10) (Nat.div_lt_self (by omega) (by omega)) acc]
      simp only [List.foldl_cons, List.foldl_nil, List.length_cons, List.length_nil]
      rw [digitVal_digitChar (Nat.mod_lt n (by omega))]
      rw [pow_succ, ← mul_assoc]
      omega

theorem digitsVal_natToDigits (n : Nat) : digitsVal (natToDigits n) = n := by
  have h := foldl_digitsVal n 0
  simpa [digitsVal] using h

theorem natToDigits_inj {a b : Nat} (h : natToDigits a = natToDigits b) : a = b := by
  have ha := digitsVal_natToDigits a
  rw [h, digitsVal_natToDigits] at ha
  omega

theorem natRepr_inj {a b : Nat} (h : Nat.repr a = Nat.repr b) : a = b := by
  apply natToDigits_inj
  have ha : Nat.repr a = (natToDigits a).asString := by
    show (Nat.toDigitsCore 10 (a + 1) a []).asString = _
    rw [natToDigits_toDigitsCore (a + 1) a [] (by omega), List.append_nil]
  have hb : Nat.repr b = (natToDigits b).asString := by
    show (Nat.toDigitsCore 10 (b + 1) b []).asString = _
    rw [natToDigits_toDigitsCore (b + 1) b [] (by omega), List.append_nil]
  rw [ha, hb] at h
  exact congrArg String.data h

/-- `str` is injective on nonnegative ints (every number the application
turns into a dict key is positive). -/
theorem toString_int_nonneg_inj {a b : Int} (ha : 0 ≤ a) (hb : 0 ≤ b)
    (h : toString a = toString b) : a = b := by
  obtain ⟨m, rfl⟩ := Int.eq_ofNat_of_zero_le ha
  obtain ⟨n, rfl⟩ := Int.eq_ofNat_of_zero_le hb
  have hm : Nat.repr m = Nat.repr n := h
  exact congrArg Int.ofNat (natRepr_inj hm)

/-- The string keys made from a range of positive numbers are distinct. -/
theorem rangeKeys_nodup (s e : Int) (hs : 0 < s) :
    ((rangeList s e).map (fun i => toString i)).Nodup := by
  apply List.Nodup.map_on
  · intro a ha b hb hab
    have ha' := (mem_rangeList.mp ha).1
    have hb' := (mem_rangeList.mp hb).1
    exact toString_int_nonneg_inj (by omega) (by omega) hab
  · exact nodup_rangeList s e

/-! ## Claims about `apply_problem_range` -/

/-- C1: for every `PageUnit` and requested `(start, end)` with positive
bounds and span at most 500, `apply_problem_range` succeeds; afterwards the
stored bounds are the requested ones swapped into ascending order, every
number in the stored inclusive range is present under its string key — the
old entry when one existed, a fresh default Problem (status "완료", memo "")
otherwise — and every key that is not the string form of an in-range number
is absent. -/
theorem c1_apply_problem_range_success (u : PageUnit) (s e : Int)
    (hs : 0 < s) (he : 0 < e) (hspan : max s e - min s e ≤ 500) :
    (apply_problem_range u s e).2 = none ∧
    (apply_problem_range u s e).1.start_problem = some (min s e) ∧
    (apply_problem_range u s e).1.end_problem = some (max s e) ∧
    (∀ n : Int, min s e ≤ n → n ≤ max s e →
      dictGet (apply_problem_range u s e).1.problems (toString n) =
        some ((dictGet u.problems (toString n)).getD { status := "완료", memo := "" })) ∧
    (∀ k : String, (∀ n : Int, min s e ≤ n → n ≤ max s e → toString n ≠ k) →
      dictGet (apply_problem_range u s e).1.problems k = none) := by
  refine ⟨?_, ?_, ?_, ?_, ?_⟩
  · rw [apply_problem_range_ok u s e hs he hspan]
  · rw [apply_problem_range_ok u s e hs he hspan]
  · rw [apply_problem_range_ok u s e hs he hspan]
  · intro n h1 h2
    rw [apply_problem_range_get u s e hs he hspan]
    rw [if_pos]
    exact List.any_eq_true.mpr ⟨n, mem_rangeList.mpr ⟨h1, h2⟩, by simp⟩
  · intro k hk
    rw [apply_problem_range_get u s e hs he hspan]
    rw [if_neg]
    intro hany
    obtain ⟨i, hi, hbeq⟩ := List.any_eq_true.mp hany
    exact hk i (mem_rangeList.mp hi).1 (mem_rangeList.mp hi).2 (by simpa using hbeq)

theorem c1_apply_problem_range_success_witness :
    ((0 : Int) < 3 ∧ (0 : Int) < 1 ∧ max (3 : Int) 1 - min (3 : Int) 1 ≤ 500) ∧
    (apply_problem_range { problems := [("2", { status := "질문", memo := "왜" })] } 3 1).2
      = none :=
  ⟨by decide,
   (c1_apply_problem_range_success
      { problems := [("2", { status := "질문", memo := "왜" })] } 3 1
      (by decide) (by decide) (by decide)).1⟩

/-- C2: `apply_problem_range` reports an error exactly when a requested
bound is non-positive or the span of the range exceeds 500, and in that
case the unit is returned unchanged. -/
theorem c2_apply_problem_range_validation (u : PageUnit) (s e : Int) :
    ((apply_problem_range u s e).2.isSome ↔
      (s ≤ 0 ∨ e ≤ 0 ∨ 500 < max s e - min s e)) ∧
    ((apply_problem_range u s e).2.isSome → (apply_problem_range u s e).1 = u) := by
  by_cases h1 : s ≤ 0 ∨ e ≤ 0
  · rw [apply_problem_range_err1 u s e h1]
    refine ⟨?_, fun _ => rfl⟩
    simp only [Option.isSome_some, true_iff]
    omega
  · by_cases h2 : 500 < max s e - min s e
    · rw [apply_problem_range_err2 u s e h1 h2]
      refine ⟨?_, fun _ => rfl⟩
      simp only [Option.isSome_some, true_iff]
      omega
    · rw [apply_problem_range_ok u s e (by omega) (by omega) (by omega)]
      refine ⟨⟨fun hfalse => absurd hfalse (by simp), fun hdisj => absurd hdisj (by omega)⟩, ?_⟩
      intro hfalse
      simp at hfalse

theorem c2_apply_problem_range_validation_witness :
    (apply_problem_range { } 5 1000).2.isSome ∧ (apply_problem_range { } 5 1000).1 = { } :=
  ⟨(c2_apply_problem_range_validation { } 5 1000).1.mpr (by decide),
   (c2_apply_problem_range_validation { } 5 1000).2
     ((c2_apply_problem_range_validation { } 5 1000).1.mpr (by decide))⟩

/-- C3 (amended): after a successful `apply_problem_range` on a unit whose
problems dict has distinct keys (every real Python dict does), the problems
dict holds at most 501 entries — the accepted spans are those of at most
500, and a span of exactly 500 covers 501 numbers. -/
theorem c3_problems_at_most_501 (u : PageUnit) (s e : Int) (u' : PageUnit)
    (hnd : NodupKeys u.problems)
    (hok : apply_problem_range u s e = (u', none)) :
    u'.problems.length ≤ 501 := by
  by_cases h1 : s ≤ 0 ∨ e ≤ 0
  · rw [apply_problem_range_err1 u s e h1] at hok
    exact absurd (congrArg Prod.snd hok) (by simp)
  by_cases h2 : 500 < max s e - min s e
  · rw [apply_problem_range_err2 u s e h1 h2] at hok
    exact absurd (congrArg Prod.snd hok) (by simp)
  rw [apply_problem_range_ok u s e (by omega) (by omega) (by omega)] at hok
  obtain rfl : _ = u' := congrArg Prod.fst hok
  dsimp only
  refine le_trans (length_filter_keys_le _ _ (ensureFold_nodupKeys _ _ _ hnd)) ?_
  rw [List.length_map, length_rangeList]
  omega

theorem c3_problems_at_most_501_witness :
    NodupKeys (({ } : PageUnit)).problems ∧
    (apply_problem_range { } 1 3).1.problems.length ≤ 501 :=
  ⟨by decide,
   c3_problems_at_most_501 { } 1 3 _ (by decide) (by decide)⟩

/-- C3 as stated is false: a span of exactly 500 is accepted and creates
501 entries, one more than the claimed cap of 500. -/
theorem c3_counterexample :
    (apply_problem_range { } 1 501).2 = none ∧
    (apply_problem_range { } 1 501).1.problems.length = 501 := by
  have hok := apply_problem_range_ok { } 1 501 (by norm_num) (by norm_num) (by norm_num)
  have hmin : min (1 : Int) 501 = 1 := by norm_num
  have hmax : max (1 : Int) 501 = 501 := by norm_num
  rw [hmin, hmax] at hok
  refine ⟨by rw [hok], ?_⟩
  rw [hok]
  dsimp only
  rw [ensureFold_eq_append_map ({ status := "완료", memo := "" } : Problem) (rangeList 1 501) []
        (fun i _ => rfl) (rangeKeys_nodup 1 501 (by norm_num))]
  rw [List.nil_append]
  have hall : ∀ kv ∈ (rangeList 1 501).map
      (fun i => (toString i, ({ status := "완료", memo := "" } : Problem))),
      (((rangeList 1 501).map (fun i => toString i)).contains kv.1) = true := by
    intro kv hkv
    obtain ⟨i, hi, rfl⟩ := List.mem_map.mp hkv
    dsimp only
    rw [List.contains_eq_any_beq, any_toString_beq]
    exact List.any_eq_true.mpr ⟨i, hi, by simp⟩
  rw [List.filter_eq_self.mpr hall]
  rw [List.length_map, length_rangeList]
  decide

/-! ## Decomposition of the summary builder -/

theorem dictGet_mem {α : Type} {d : Dict α} {k : String} {v : α}
    (h : dictGet d k = some v) : ∃ k', (k', v) ∈ d := by
  unfold dictGet at h
  obtain ⟨kv, hfind, hv⟩ := Option.map_eq_some'.mp h
  refine ⟨kv.1, ?_⟩
  rw [← hv]
  simpa [Prod.mk.eta] using List.mem_of_find?_eq_some hfind

/-- Running the inner summary loop from an arbitrary accumulator appends
its from-nil output to each component. -/
theorem summaryFold_append (p : Int) (l : List (String × Problem))
    (acc : List String × List String × List String) :
    l.foldl (summaryStep p) acc =
      (acc.1 ++ (l.foldl (summaryStep p) ([], [], [])).1,
       acc.2.1 ++ (l.foldl (summaryStep p) ([], [], [])).2.1,
       acc.2.2 ++ (l.foldl (summaryStep p) ([], [], [])).2.2) := by
  induction l generalizing acc with
  | nil => simp
  | cons kv l ih =>
    simp only [List.foldl_cons]
    rw [ih (summaryStep p acc kv), ih (summaryStep p ([], [], []) kv)]
    simp only [summaryStep]
    split_ifs <;> simp

/-- The wrong component of the inner loop: the problems with status
"틀림", in traversal order, rendered as tags. -/
theorem summaryFold_wrong (p : Int) (l : List (String × Problem)) :
    (l.foldl (summaryStep p) ([], [], [])).1 =
      (l.filter (fun kv => kv.2.status == "틀림")).map (fun kv => problemTag p kv.1) := by
  induction l with
  | nil => rfl
  | cons kv l ih =>
    rw [List.foldl_cons, summaryFold_append p l (summaryStep p ([], [], []) kv)]
    dsimp only
    rw [ih]
    simp only [summaryStep, List.filter_cons]
    split_ifs <;> simp_all

/-- The fixed component of the inner loop. -/
theorem summaryFold_fixed (p : Int) (l : List (String × Problem)) :
    (l.foldl (summaryStep p) ([], [], [])).2.1 =
      (l.filter (fun kv => kv.2.status == "틀렸지만 고침")).map (fun kv => problemTag p kv.1) := by
  induction l with
  | nil => rfl
  | cons kv l ih =>
    rw [List.foldl_cons, summaryFold_append p l (summaryStep p ([], [], []) kv)]
    dsimp only
    rw [ih]
    simp only [summaryStep, List.filter_cons]
    split_ifs <;> simp_all

/-- The question component of the inner loop: tag plus trimmed memo or the
placeholder. -/
theorem summaryFold_ques (p : Int) (l : List (String × Problem)) :
    (l.foldl (summaryStep p) ([], [], [])).2.2 =
      (l.filter (fun kv => kv.2.status == "질문")).map
        (fun kv =>
          if pyStrip kv.2.memo = "" then problemTag p kv.1 ++ " (메모 없음)"
          else problemTag p kv.1 ++ " " ++ pyStrip kv.2.memo) := by
  induction l with
  | nil => rfl
  | cons kv l ih =>
    rw [List.foldl_cons, summaryFold_append p l (summaryStep p ([], [], []) kv)]
    dsimp only
    rw [ih]
    simp only [summaryStep, List.filter_cons]
    split_ifs <;> simp_all

/-- The outer summary loop from an arbitrary accumulator appends each
page's declarative tag lists, pages in range order. -/
theorem summarySections_foldl (state : AppState) (l : List Int)
    (acc : List String × List String × List String) :
    l.foldl
      (fun acc p =>
        match dictGet state.pages (toString p) with
        | none => acc
        | some unit =>
          if unit.problems.isEmpty then acc
          else (sortedProblems unit).foldl (summaryStep p) acc) acc
    = (acc.1 ++ l.flatMap (wrongTags state),
       acc.2.1 ++ l.flatMap (fixedTags state),
       acc.2.2 ++ l.flatMap (quesTags state)) := by
  induction l generalizing acc with
  | nil => simp
  | cons p l ih =>
    simp only [List.foldl_cons, List.flatMap_cons]
    cases hget : dictGet state.pages (toString p) with
    | none =>
      dsimp only
      rw [ih]
      simp [wrongTags, fixedTags, quesTags, hget]
    | some u =>
      dsimp only
      by_cases hemp : u.problems.isEmpty
      · simp only [hemp, if_true]
        rw [ih]
        have hnil : u.problems = [] := List.isEmpty_iff.mp hemp
        simp [wrongTags, fixedTags, quesTags, hget, hnil, sortedProblems]
      · rw [if_neg hemp]
        rw [summaryFold_append, ih]
        dsimp only
        rw [summaryFold_wrong, summaryFold_fixed, summaryFold_ques]
        simp only [wrongTags, fixedTags, quesTags, hget]
        simp [List.append_assoc]

/-- `summarySections` is exactly the page-by-page concatenation, in
ascending page order, of the per-page status-filtered tag lists. -/
theorem summarySections_eq (state : AppState) (sp ep : Int) :
    summarySections state sp ep =
      ((rangeList sp ep).flatMap (wrongTags state),
       (rangeList sp ep).flatMap (fixedTags state),
       (rangeList sp ep).flatMap (quesTags state)) := by
  unfold summarySections
  rw [summarySections_foldl]
  simp

/-! ## Claims about the summary builder -/

/-- C5: the summary lists are built page by page in ascending order over
the range, each page's problems taken in ascending numeric key order (a
stable sort by `int(key)`, so "9" precedes "10"); status "틀림" feeds the
wrong section, "틀렸지만 고침" the fixed section, and "질문" the question
section together with the trimmed memo or a placeholder when it is blank.
On the spec's example state the wrong section is exactly `[p.1 3번]` and
the question section exactly `[p.2 5번] why`. -/
theorem c5_build_summary_grouping :
    (∀ (state : AppState) (sp ep : Int),
      summarySections state sp ep =
        ((rangeList sp ep).flatMap (wrongTags state),
         (rangeList sp ep).flatMap (fixedTags state),
         (rangeList sp ep).flatMap (quesTags state))) ∧
    (∀ u : PageUnit,
      List.Sorted problemOrder (sortedProblems u) ∧
      (sortedProblems u).Perm u.problems) ∧
    summarySections exampleSummaryState 1 2 = (["[p.1 3번]"], [], ["[p.2 5번] why"]) ∧
    summarySections exampleNumericState 1 1 = (["[p.1 9번]", "[p.1 10번]"], [], []) ∧
    summarySections exampleMemoState 1 1 = ([], [], ["[p.1 4번] (메모 없음)", "[p.1 6번] why"]) ∧
    build_summary exampleSummaryState "2026-10-12" =
      "✅ 오늘 숙제 정리\n- 문제집: (미입력)\n- 범위: p.1 ~ p.2\n- 날짜: 2026-10-12\n\n❌ 틀림\n[p.1 3번]\n\n🛠️ 틀렸지만 고침\n없음\n\n❓ 질문 + 메모\n[p.2 5번] why" :=
  ⟨summarySections_eq,
   fun u => ⟨List.sorted_insertionSort problemOrder u.problems,
             List.perm_insertionSort problemOrder u.problems⟩,
   by decide, by decide, by decide, by decide⟩

/-- C8: when either page bound is unset, `build_summary` returns exactly
the range-not-set message, whatever the book name and pages hold. -/
theorem c8_build_summary_range_not_set (state : AppState) (today : String)
    (h : state.start_page = none ∨ state.end_page = none) :
    build_summary state today = "숙제 범위가 설정되지 않았습니다." := by
  unfold build_summary
  cases h1 : state.start_page with
  | none => cases h2 : state.end_page <;> rfl
  | some sp =>
    cases h2 : state.end_page with
    | none => rfl
    | some ep =>
      exfalso
      rcases h with h | h
      · rw [h] at h1
        exact Option.noConfusion h1
      · rw [h] at h2
        exact Option.noConfusion h2

theorem c8_build_summary_range_not_set_witness :
    build_summary
      { book_name := "수학", start_page := some 3, end_page := none,
        pages := [("3", { done := true, start_problem := some 1, end_problem := some 2,
                          problems := [("1", { status := "틀림", memo := "" })] })] }
      "2026-10-12" = "숙제 범위가 설정되지 않았습니다." :=
  c8_build_summary_range_not_set _ "2026-10-12" (Or.inr rfl)

/-- C9: a problem whose status is not "틀림", "틀렸지만 고침" or "질문" —
in particular the done status "완료" or any string outside the enum —
contributes to none of the three summary sections in every summary,
whatever else the state holds: its loop iteration returns the accumulator
unchanged; every entry of each section stems from a problem of the state
carrying that section's status; and on a page mixing a done, a wrong and
an out-of-enum problem only the wrong one is reported. -/
theorem c9_only_three_statuses_reported :
    (∀ (p : Int) (acc : List String × List String × List String) (kv : String × Problem),
      kv.2.status ≠ "틀림" → kv.2.status ≠ "틀렸지만 고침" → kv.2.status ≠ "질문" →
      summaryStep p acc kv = acc) ∧
    (∀ (state : AppState) (sp ep : Int) (x : String),
      (x ∈ (summarySections state sp ep).1 →
        ∃ p ∈ rangeList sp ep, ∃ u kv, dictGet state.pages (toString p) = some u ∧
          kv ∈ u.problems ∧ kv.2.status = "틀림" ∧ x = problemTag p kv.1) ∧
      (x ∈ (summarySections state sp ep).2.1 →
        ∃ p ∈ rangeList sp ep, ∃ u kv, dictGet state.pages (toString p) = some u ∧
          kv ∈ u.problems ∧ kv.2.status = "틀렸지만 고침" ∧ x = problemTag p kv.1) ∧
      (x ∈ (summarySections state sp ep).2.2 →
        ∃ p ∈ rangeList sp ep, ∃ u kv, dictGet state.pages (toString p) = some u ∧
          kv ∈ u.problems ∧ kv.2.status = "질문" ∧
          x = (if pyStrip kv.2.memo = "" then problemTag p kv.1 ++ " (메모 없음)"
               else problemTag p kv.1 ++ " " ++ pyStrip kv.2.memo))) ∧
    summarySections exampleMixedState 1 1 = (["[p.1 2번]"], [], []) := by
  refine ⟨?_, ?_, by decide⟩
  · intro p acc kv h1 h2 h3
    simp only [summaryStep]
    rw [if_neg h1, if_neg h2, if_neg h3]
  · intro state sp ep x
    rw [summarySections_eq]
    dsimp only
    refine ⟨?_, ?_, ?_⟩
    · intro hx
      obtain ⟨p, hp, hxw⟩ := List.mem_flatMap.mp hx
      unfold wrongTags at hxw
      cases hget : dictGet state.pages (toString p) with
      | none =>
        rw [hget] at hxw
        simp at hxw
      | some u =>
        rw [hget] at hxw
        dsimp only at hxw
        obtain ⟨kv, hkvf, rfl⟩ := List.mem_map.mp hxw
        have hf := List.mem_filter.mp hkvf
        exact ⟨p, hp, u, kv, hget,
          ((List.perm_insertionSort problemOrder u.problems).mem_iff).mp hf.1,
          by simpa using hf.2, rfl⟩
    · intro hx
      obtain ⟨p, hp, hxw⟩ := List.mem_flatMap.mp hx
      unfold fixedTags at hxw
      cases hget : dictGet state.pages (toString p) with
      | none =>
        rw [hget] at hxw
        simp at hxw
      | some u =>
        rw [hget] at hxw
        dsimp only at hxw
        obtain ⟨kv, hkvf, rfl⟩ := List.mem_map.mp hxw
        have hf := List.mem_filter.mp hkvf
        exact ⟨p, hp, u, kv, hget,
          ((List.perm_insertionSort problemOrder u.problems).mem_iff).mp hf.1,
          by simpa using hf.2, rfl⟩
    · intro hx
      obtain ⟨p, hp, hxw⟩ := List.mem_flatMap.mp hx
      unfold quesTags at hxw
      cases hget : dictGet state.pages (toString p) with
      | none =>
        rw [hget] at hxw
        simp at hxw
      | some u =>
        rw [hget] at hxw
        dsimp only at hxw
        obtain ⟨kv, hkvf, rfl⟩ := List.mem_map.mp hxw
        have hf := List.mem_filter.mp hkvf
        exact ⟨p, hp, u, kv, hget,
          ((List.perm_insertionSort problemOrder u.problems).mem_iff).mp hf.1,
          by simpa using hf.2, rfl⟩

theorem c9_only_three_statuses_reported_witness :
    summaryStep 1 (["w"], ["f"], ["q"]) ("4", { status := "완료", memo := "메모" })
      = (["w"], ["f"], ["q"]) :=
  c9_only_three_statuses_reported.1 1 (["w"], ["f"], ["q"])
    ("4", { status := "완료", memo := "메모" }) (by decide) (by decide) (by decide)

/-! ## Claim about `ensure_pages_initialized` -/

/-- C6: with both bounds set, `ensure_pages_initialized` stores them
swapped into ascending order, leaves every already-present `PageUnit`
(in range or not) untouched, adds a fresh default `PageUnit` for every
in-range page number whose key was missing, adds nothing else; with a
bound unset it changes nothing at all. -/
theorem c6_ensure_pages_initialized :
    (∀ (state : AppState) (sp ep : Int),
      state.start_page = some sp → state.end_page = some ep →
      (ensure_pages_initialized state).book_name = state.book_name ∧
      (ensure_pages_initialized state).start_page = some (min sp ep) ∧
      (ensure_pages_initialized state).end_page = some (max sp ep) ∧
      (∀ (k : String) (u : PageUnit), dictGet state.pages k = some u →
        dictGet (ensure_pages_initialized state).pages k = some u) ∧
      (∀ n : Int, min sp ep ≤ n → n ≤ max sp ep →
        dictGet state.pages (toString n) = none →
        dictGet (ensure_pages_initialized state).pages (toString n) = some { }) ∧
      (∀ k : String, dictGet state.pages k = none →
        (∀ n : Int, min sp ep ≤ n → n ≤ max sp ep → toString n ≠ k) →
        dictGet (ensure_pages_initialized state).pages k = none)) ∧
    (∀ state : AppState, state.start_page = none ∨ state.end_page = none →
      ensure_pages_initialized state = state) := by
  constructor
  · intro state sp ep h1 h2
    have hshape : ensure_pages_initialized state =
        { state with
          start_page := some (min sp ep)
          end_page := some (max sp ep)
          pages := (rangeList (min sp ep) (max sp ep)).foldl
            (fun d p =>
              if (dictGet d (toString p)).isSome then d
              else d ++ [(toString p, {})])
            state.pages } := by
      unfold ensure_pages_initialized
      rw [h1, h2]
      dsimp only
      rw [clamp_pages_eq]
    refine ⟨by rw [hshape], by rw [hshape], by rw [hshape], ?_, ?_, ?_⟩
    · intro k u hk
      rw [hshape]
      dsimp only
      rw [dictGet_ensureFold, hk]
      rfl
    · intro n hn1 hn2 hnone
      rw [hshape]
      dsimp only
      rw [dictGet_ensureFold, hnone, Option.none_or, if_pos]
      exact List.any_eq_true.mpr ⟨n, mem_rangeList.mpr ⟨hn1, hn2⟩, by simp⟩
    · intro k hnone hk
      rw [hshape]
      dsimp only
      rw [dictGet_ensureFold, hnone, Option.none_or, if_neg]
      intro hany
      obtain ⟨i, hi, hbeq⟩ := List.any_eq_true.mp hany
      exact hk i (mem_rangeList.mp hi).1 (mem_rangeList.mp hi).2 (by simpa using hbeq)
  · intro state h
    unfold ensure_pages_initialized
    cases h1 : state.start_page with
    | none => rfl
    | some sp =>
      cases h2 : state.end_page with
      | none => rfl
      | some ep =>
        exfalso
        rcases h with h | h
        · rw [h] at h1
          exact Option.noConfusion h1
        · rw [h] at h2
          exact Option.noConfusion h2

theorem c6_ensure_pages_initialized_witness :
    (ensure_pages_initialized
        { book_name := "b", start_page := some 3, end_page := some 1,
          pages := [("5", { done := true, start_problem := some 1, end_problem := some 1,
                            problems := [("1", { status := "질문", memo := "?" })] })] }).start_page
      = some (min 3 1) ∧
    dictGet (ensure_pages_initialized
        { book_name := "b", start_page := some 3, end_page := some 1,
          pages := [("5", { done := true, start_problem := some 1, end_problem := some 1,
                            problems := [("1", { status := "질문", memo := "?" })] })] }).pages "5"
      = some { done := true, start_problem := some 1, end_problem := some 1,
               problems := [("1", { status := "질문", memo := "?" })] } ∧
    dictGet (ensure_pages_initialized
        { book_name := "b", start_page := some 3, end_page := some 1,
          pages := [("5", { done := true, start_problem := some 1, end_problem := some 1,
                            problems := [("1", { status := "질문", memo := "?" })] })] }).pages
        (toString (2 : Int))
      = some { } ∧
    ensure_pages_initialized { book_name := "b" } = { book_name := "b" } := by
  have h := (c6_ensure_pages_initialized.1
    { book_name := "b", start_page := some 3, end_page := some 1,
      pages := [("5", { done := true, start_problem := some 1, end_problem := some 1,
                        problems := [("1", { status := "질문", memo := "?" })] })] } 3 1 rfl rfl)
  refine ⟨h.2.1, ?_, ?_, ?_⟩
  · exact h.2.2.2.1 "5" _ (by decide)
  · exact h.2.2.2.2.1 2 (by decide) (by decide) (by decide)
  · exact c6_ensure_pages_initialized.2 { book_name := "b" } (Or.inl rfl)

/-! ## Round-trip lemmas for the persistence layer -/

theorem jObj?_jOrEmptyObj_obj (L : List (String × Json)) :
    jObj? (jOrEmptyObj (some (.obj L))) = some L := by
  cases L with
  | nil => rfl
  | cons kv L => rfl

theorem jBound_optIntJson (o : Option Int) : jBound (some (optIntJson o)) = o := by
  cases o <;> rfl

theorem load_problem_save (v : Problem) :
    load_problem (save_problem_fields v) = v := rfl

theorem dictInsert_append {α : Type} (d : Dict α) (k : String) (v : α)
    (h : k ∉ d.map Prod.fst) : dictInsert d k v = d ++ [(k, v)] := by
  unfold dictInsert
  rw [if_neg]
  intro hany
  obtain ⟨kv, hkv, hbeq⟩ := List.any_eq_true.mp hany
  have hk : kv.1 = k := by simpa using hbeq
  exact h (hk ▸ List.mem_map_of_mem Prod.fst hkv)

theorem load_problems_save_aux (l : Dict Problem) :
    ∀ acc : Dict Problem, (acc.map Prod.fst ++ l.map Prod.fst).Nodup →
      (l.map (fun kv => (kv.1, save_problem kv.2))).foldlM load_problems_step acc
        = some (acc ++ l) := by
  induction l with
  | nil =>
    intro acc _
    simp
  | cons kv l ih =>
    intro acc hacc
    simp only [List.map_cons] at hacc
    simp only [List.map_cons, List.foldlM_cons]
    have hnotmem : kv.1 ∉ acc.map Prod.fst := by
      intro hmem
      have hd := (List.nodup_append.mp hacc).2.2
      exact hd hmem (List.mem_cons_self _ _)
    rw [show load_problems_step acc (kv.1, save_problem kv.2)
          = some (dictInsert acc kv.1 kv.2) from rfl]
    rw [dictInsert_append acc kv.1 kv.2 hnotmem, Prod.mk.eta]
    simp only [Option.bind_eq_bind, Option.some_bind]
    rw [List.append_cons acc kv l]
    refine ih (acc ++ [kv]) ?_
    simp only [List.map_append, List.map_cons, List.map_nil]
    rw [List.append_assoc]
    simpa using hacc

theorem load_problems_save (l : Dict Problem) (hnd : NodupKeys l) :
    load_problems (l.map (fun kv => (kv.1, save_problem kv.2))) = some l := by
  have h := load_problems_save_aux l [] (by simpa [NodupKeys] using hnd)
  simpa [load_problems] using h

theorem load_page_save (pu : PageUnit) (hnd : NodupKeys pu.problems) :
    load_page (save_page_fields pu) = some pu := by
  unfold load_page
  rw [show jGet (save_page_fields pu) "problems"
        = some (.obj (pu.problems.map (fun kv => (kv.1, save_problem kv.2)))) from rfl]
  rw [jObj?_jOrEmptyObj_obj]
  simp only [Option.bind_eq_bind, Option.some_bind]
  rw [load_problems_save pu.problems hnd]
  simp only [Option.bind_eq_bind, Option.some_bind]
  rw [show jGetD (save_page_fields pu) "done" (.bool false) = .bool pu.done from rfl]
  rw [show jGet (save_page_fields pu) "start_problem"
        = some (optIntJson pu.start_problem) from rfl]
  rw [show jGet (save_page_fields pu) "end_problem"
        = some (optIntJson pu.end_problem) from rfl]
  rw [jBound_optIntJson, jBound_optIntJson]
  rw [show jFalsy (.bool pu.done) = !pu.done from rfl, Bool.not_not]
  rfl

theorem load_pages_step_save (acc : Dict PageUnit) (k : String) (pu : PageUnit)
    (hnd : NodupKeys pu.problems) :
    load_pages_step acc (k, save_page pu) = some (dictInsert acc k pu) := by
  show (load_page (save_page_fields pu)).bind (fun unit => some (dictInsert acc k unit))
    = some (dictInsert acc k pu)
  rw [load_page_save pu hnd]
  rfl

theorem load_pages_save_aux (l : Dict PageUnit)
    (hprob : ∀ kv ∈ l, NodupKeys kv.2.problems) :
    ∀ acc : Dict PageUnit, (acc.map Prod.fst ++ l.map Prod.fst).Nodup →
      (l.map (fun kv => (kv.1, save_page kv.2))).foldlM load_pages_step acc
        = some (acc ++ l) := by
  induction l with
  | nil =>
    intro acc _
    simp
  | cons kv l ih =>
    intro acc hacc
    simp only [List.map_cons] at hacc
    simp only [List.map_cons, List.foldlM_cons]
    have hnotmem : kv.1 ∉ acc.map Prod.fst := by
      intro hmem
      have hd := (List.nodup_append.mp hacc).2.2
      exact hd hmem (List.mem_cons_self _ _)
    rw [load_pages_step_save acc kv.1 kv.2 (hprob kv (List.mem_cons_self _ _))]
    rw [dictInsert_append acc kv.1 kv.2 hnotmem, Prod.mk.eta]
    simp only [Option.bind_eq_bind, Option.some_bind]
    rw [List.append_cons acc kv l]
    refine ih (fun kv' hkv' => hprob kv' (List.mem_cons_of_mem _ hkv')) (acc ++ [kv]) ?_
    simp only [List.map_append, List.map_cons, List.map_nil]
    rw [List.append_assoc]
    simpa using hacc

theorem load_pages_save (l : Dict PageUnit) (hnd : NodupKeys l)
    (hprob : ∀ kv ∈ l, NodupKeys kv.2.problems) :
    load_pages (l.map (fun kv => (kv.1, save_page kv.2))) = some l := by
  have h := load_pages_save_aux l hprob [] (by simpa [NodupKeys] using hnd)
  simpa [load_pages] using h

/-! ## Claims about persistence -/

/-- C4: saving a state and loading the result reproduces the state exactly
— same book name, page bounds, page entries with their done flags and
problem bounds, and every problem's status and memo — for every state
whose dicts satisfy the (always true in Python) distinct-keys invariant.
Statuses and memos are strings by the data model. -/
theorem c4_save_load_roundtrip (state : AppState)
    (h1 : NodupKeys state.pages)
    (h2 : ∀ kv ∈ state.pages, NodupKeys kv.2.problems) :
    load_state (some (save_state state)) = some state := by
  unfold load_state
  simp only [Option.bind_eq_bind, Option.some_bind]
  rw [show jObj? (save_state state) = some (save_state_fields state) from rfl]
  simp only [Option.bind_eq_bind, Option.some_bind]
  rw [show jGet (save_state_fields state) "pages"
        = some (.obj (state.pages.map (fun kv => (kv.1, save_page kv.2)))) from rfl]
  rw [jObj?_jOrEmptyObj_obj]
  simp only [Option.bind_eq_bind, Option.some_bind]
  rw [load_pages_save state.pages h1 h2]
  simp only [Option.bind_eq_bind, Option.some_bind]
  rw [show jGetD (save_state_fields state) "book_name" (.str "")
        = .str state.book_name from rfl]
  rw [show jGet (save_state_fields state) "start_page"
        = some (optIntJson state.start_page) from rfl]
  rw [show jGet (save_state_fields state) "end_page"
        = some (optIntJson state.end_page) from rfl]
  rw [jBound_optIntJson, jBound_optIntJson]
  rfl

theorem c4_save_load_roundtrip_witness :
    NodupKeys exampleSummaryState.pages ∧
    load_state (some (save_state exampleSummaryState)) = some exampleSummaryState :=
  ⟨by decide, c4_save_load_roundtrip exampleSummaryState (by decide) (by decide)⟩

/-- C7: `load_state` yields "no saved state" on a missing or unparsable
file and on documents of the wrong structure, never an error; on success
every missing member takes its documented default — empty book name,
absent bounds, done false, status "완료", memo "". -/
theorem c7_load_state_swallows_errors :
    load_state none = none ∧
    (∀ j : Json, jObj? j = none → load_state (some j) = none) ∧
    load_state (some (.obj []))
      = some { book_name := "", start_page := none, end_page := none, pages := [] } ∧
    load_state (some (.obj [("pages", .num 3)])) = none ∧
    load_state (some (.obj [("pages",
        .obj [("3", .obj [("problems", .obj [("7", .obj [])])])])]))
      = some { book_name := "", start_page := none, end_page := none,
               pages := [("3", { done := false, start_problem := none, end_problem := none,
                                 problems := [("7", { status := "완료", memo := "" })] })] } := by
  refine ⟨rfl, ?_, by decide, by decide, by decide⟩
  intro j hj
  unfold load_state
  simp only [Option.bind_eq_bind, Option.some_bind]
  rw [hj]
  rfl

theorem c7_load_state_swallows_errors_witness :
    jObj? (.num 5) = none ∧ load_state (some (.num 5)) = none :=
  ⟨rfl, c7_load_state_swallows_errors.2.1 (.num 5) rfl⟩

/-- C10: `load_state` does not validate statuses against the four-value
enum: a well-formed document whose problem carries an arbitrary status
string loads successfully with that status stored verbatim. -/
theorem c10_load_state_status_not_validated :
    load_state (some (.obj [("pages", .obj [("1", .obj [("problems",
        .obj [("2", .obj [("status", .str "엉뚱한 상태")])])])])]))
      = some { book_name := "", start_page := none, end_page := none,
               pages := [("1", { done := false, start_problem := none, end_problem := none,
                                 problems := [("2", { status := "엉뚱한 상태", memo := "" })] })] } := by
  decide

end HomeworkChecker
